import Mathlib

/-!
Seismic Explorer: point-sprite buffers, plate-movement arrows and tile wrapping.

A shallow embedding of

* `js/map-tile-helpers.js` (`wrapTileX`),
* `js/volcanos/volcano.js` (the volcano point sprite),
* `js/plate-movement/direction-arrows.js` (the set of plate-movement arrows).

Conventions of the embedding.

* A finite JavaScript number is the rational it denotes (`ℚ`, or `Int` where the code
  works on integers).  Every arithmetic result is rounded to the nearest double by
  `roundDouble`, and every value stored in a `Float32Array` is rounded to the nearest
  single by `roundFloat32`; `%` on doubles is exact.  `Infinity` cannot be denoted: where
  the code of `wrapTileX` produces it the model follows it to the `NaN` it ends in, and
  elsewhere results beyond the largest double or single are left unbounded, the
  statements carrying the bounds that keep away from them.
* A `Float32Array` is a `List ℚ`.  Reading past the end yields `undefined`
  (`none`), writing past the end is ignored, as for typed arrays.
* Objects that the code compares with `===` carry a reference `ref`; two
  distinct objects have distinct references whatever their fields hold.
* A thrown exception is a `JSError`; operations of the arrow set return the
  state the object is left in together with the completion.
-/

namespace Seismic

/-- Exceptions the embedded code can raise. -/
inductive JSError where
  /-- Reading an identifier that no scope declares. -/
  | ReferenceError
  /-- Calling something that is not a function, or reading a property of `undefined`. -/
  | TypeError
  deriving DecidableEq, Repr

/-! ## IEEE 754 rounding -/

/-- Rounding to the nearest integer, a tie going to the even neighbour. -/
def roundHalfEven (t : ℚ) : ℤ :=
  if t - ⌊t⌋ < 1 / 2 then ⌊t⌋
  else if 1 / 2 < t - ⌊t⌋ then ⌊t⌋ + 1
  else if ⌊t⌋ % 2 = 0 then ⌊t⌋ else ⌊t⌋ + 1

/-- Rounding to the nearest value of a binary floating-point format with `precision`
significant bits and least normal exponent `emin`, ties to even: around `q ≠ 0` the
representable values are the multiples of `2 ^ (max ⌊log₂ |q|⌋ emin - (precision - 1))`
(the second argument of `max` gives the subnormal range its fixed spacing).  The exponent
has no upper bound here. -/
def roundBinary (precision : Nat) (emin : ℤ) (q : ℚ) : ℚ :=
  if q = 0 then 0
  else
    roundHalfEven (q / 2 ^ (max (Int.log 2 |q|) emin - ((precision : ℤ) - 1)))
      * 2 ^ (max (Int.log 2 |q|) emin - ((precision : ℤ) - 1))

/-- Rounding to the nearest double (binary64: 53 significant bits, exponents from -1022). -/
def roundDouble (q : ℚ) : ℚ := roundBinary 53 (-1022) q

/-- Rounding to the nearest single (binary32: 24 significant bits, exponents from -126),
as a store into a `Float32Array` does. -/
def roundFloat32 (q : ℚ) : ℚ := roundBinary 24 (-126) q

/-! ## `js/map-tile-helpers.js` -/

/-- A map tile `{x, y, zoom}`.  The column `x` is an integer-valued double, or `none` for
`NaN`, which `wrapTileX` can return. -/
structure Tile where
  x : Option Int
  y : Int
  zoom : Nat
  deriving DecidableEq, Repr

/-- The `%` operator of JavaScript on integers: the remainder takes the sign of the dividend. -/
def jsMod (a b : Int) : Int := Int.tmod a b

/-- The expression `((x % maxVal) + maxVal) % maxVal` with `maxVal = Math.pow(2, zoom)`.
Both `%` are exact on doubles; the sum is rounded to a double.  From `zoom = 1024` on
`maxVal` is `Infinity`: `x % Infinity` is `x`, `x + Infinity` is `Infinity` and
`Infinity % Infinity` is `NaN`.  A sum that rounds to `2 ^ 1024` or more is `Infinity`
too, and `Infinity % maxVal` is `NaN`.  `NaN % maxVal` is `NaN`. -/
def wrapColumn (x : Option Int) (zoom : Nat) : Option Int :=
  match x with
  | none => none
  | some x =>
    if 1024 ≤ zoom then none
    else
      let maxVal : Int := 2 ^ zoom
      let sum : ℚ := roundDouble ((jsMod x maxVal + maxVal : Int) : ℚ)
      if (2 : ℚ) ^ 1024 ≤ sum then none
      else some (jsMod ⌊sum⌋ maxVal)

/-- The function `wrapTileX(tile)`: `maxVal = Math.pow(2, tile.zoom)` and
`{x: ((tile.x % maxVal) + maxVal) % maxVal, y: tile.y, zoom: tile.zoom}`. -/
def wrapTileX (tile : Tile) : Tile :=
  { x := wrapColumn tile.x tile.zoom, y := tile.y, zoom := tile.zoom }

/-! ## `js/volcanos/volcano.js` -/

/-- A `THREE.BufferAttribute`: the typed array and its `needsUpdate` flag. -/
structure BufferAttribute where
  array : List ℚ
  needsUpdate : Bool
  deriving DecidableEq, Repr

/-- A point object `{x, y, z}` living at reference `ref`. -/
structure PointObj where
  ref : Nat
  x : ℚ
  y : ℚ
  z : ℚ
  deriving DecidableEq, Repr

/-- The record a volcano sprite is built from; the constructor reads `id` and `date`. -/
structure VolcanoData where
  id : Nat
  date : ℚ
  deriving DecidableEq, Repr

/-- The `attributes` object handed to a volcano sprite
(`position`, `customColor`, `size`, `date`). -/
structure VolcanoAttributes where
  position : BufferAttribute
  customColor : BufferAttribute
  size : BufferAttribute
  date : BufferAttribute
  deriving DecidableEq, Repr

/-- The fields of a volcano sprite.  `this.attributes` is shared with the owner of the
buffers and is threaded next to the sprite.  The `_old…Attr` caches are `undefined`
(`none`) until the first write; `_oldPosAttr` holds a reference to a point object. -/
structure Volcano where
  id : Nat
  color : Nat
  data : VolcanoData
  date : ℚ
  idx : Nat
  targetVisibility : ℚ
  transition : ℚ
  _oldPosAttr : Option Nat
  _oldDateAttr : Option ℚ
  _oldColorAttr : Option Nat
  deriving DecidableEq, Repr

namespace Volcano

/-- The constructor, `constructor(data, idx, attributes)`. -/
def new (data : VolcanoData) (idx : Nat) : Volcano :=
  { id := data.id
    color := 0xFFFFFF
    data := data
    date := data.date
    idx := idx
    targetVisibility := 1
    transition := 1
    _oldPosAttr := none
    _oldDateAttr := none
    _oldColorAttr := none }

/-- The method `destroy()`: the body is `this.setSizeAttr(0)`.  The class declares `constructor`,
`destroy`, `hitTest`, `setPositionAttr`, `setDateAttr` and `setColorAttr` and extends
nothing, so `this.setSizeAttr` is `undefined` and the call throws a `TypeError` before
anything is written. -/
def destroy (v : Volcano) (attributes : VolcanoAttributes) :
    Except JSError Unit × Volcano × VolcanoAttributes :=
  (.error .TypeError, v, attributes)

/-- The method `hitTest(x, y)`, every product, difference and sum rounded to a double.  A
read past the end of an array is `undefined`, the arithmetic on it is `NaN`, `NaN === 0`
is false and every comparison with `NaN` is false. -/
def hitTest (v : Volcano) (attributes : VolcanoAttributes) (x y : ℚ) : Bool :=
  match attributes.size.array[v.idx]? with
  | none => false
  | some size =>
    let radius := roundDouble (size * (1 / 4))
    if radius = 0 then false
    else
      match attributes.position.array[v.idx * 3]?, attributes.position.array[v.idx * 3 + 1]? with
      | some px, some py =>
        let xDiff := roundDouble (px - x)
        let yDiff := roundDouble (py - y)
        decide (roundDouble (roundDouble (xDiff * xDiff) + roundDouble (yDiff * yDiff))
          ≤ roundDouble (radius * radius))
      | _, _ => false

/-- The method `setPositionAttr(point)`: `===` on objects compares references; the array
keeps the singles nearest to the coordinates. -/
def setPositionAttr (v : Volcano) (point : PointObj) (attributes : VolcanoAttributes) :
    Volcano × VolcanoAttributes :=
  if v._oldPosAttr = some point.ref then (v, attributes)
  else
    let a0 := attributes.position.array.set (v.idx * 3) (roundFloat32 point.x)
    let a1 := a0.set (v.idx * 3 + 1) (roundFloat32 point.y)
    let a2 := a1.set (v.idx * 3 + 2) (roundFloat32 point.z)
    ({ v with _oldPosAttr := some point.ref },
     { attributes with position := { array := a2, needsUpdate := true } })

/-- The method `setDateAttr(val)`: the cache keeps `val`, the array the single nearest to
it. -/
def setDateAttr (v : Volcano) (val : ℚ) (attributes : VolcanoAttributes) :
    Volcano × VolcanoAttributes :=
  if v._oldDateAttr = some val then (v, attributes)
  else
    ({ v with _oldDateAttr := some val },
     { attributes with
       date := { array := attributes.date.array.set v.idx (roundFloat32 val)
                 needsUpdate := true } })

/-- The call `THREE.Color.setHex(hex)` followed by `toArray(array, offset)`: the red,
green and blue bytes of `hex`, each divided by 255 (a double), go to `offset`,
`offset + 1`, `offset + 2` of the `Float32Array`. -/
def colorToArray (hex : Nat) (array : List ℚ) (offset : Nat) : List ℚ :=
  let r : ℚ := roundDouble (((hex / 65536 % 256 : Nat) : ℚ) / 255)
  let g : ℚ := roundDouble (((hex / 256 % 256 : Nat) : ℚ) / 255)
  let b : ℚ := roundDouble (((hex % 256 : Nat) : ℚ) / 255)
  ((array.set offset (roundFloat32 r)).set (offset + 1) (roundFloat32 g)).set (offset + 2)
    (roundFloat32 b)

/-- The method `setColorAttr(val)`. -/
def setColorAttr (v : Volcano) (val : Nat) (attributes : VolcanoAttributes) :
    Volcano × VolcanoAttributes :=
  if v._oldColorAttr = some val then (v, attributes)
  else
    ({ v with _oldColorAttr := some val },
     { attributes with
       customColor :=
         { array := colorToArray val attributes.customColor.array (v.idx * 4)
           needsUpdate := true } })

end Volcano

/-! ## `js/plate-movement/direction-arrows.js` -/

/-- The capacity of every attribute array of the arrow set. -/
def MAX_COUNT : Nat := 250000

/-- A geographic position, the argument of the projector `latLngToPoint`. -/
structure LatLng where
  lat : ℚ
  lng : ℚ
  deriving DecidableEq, Repr

/-- One plate-movement sample.  The arrow set reads `id`, `position`, `velocity` (an
object) and `visible`. -/
structure Feature where
  id : Nat
  position : LatLng
  velocity : PointObj
  visible : Bool
  deriving DecidableEq, Repr

/-- The `geometry.attributes` of the arrow set
(`position`, `direction`, `customColor`, `size`). -/
structure Attributes where
  position : BufferAttribute
  direction : BufferAttribute
  customColor : BufferAttribute
  size : BufferAttribute
  deriving DecidableEq, Repr

/-- Modelled from the spec: the arrow sprite class imported from `./direction-arrow` is
not among the sources.  A sprite holds the feature it renders (`id`, `data`), its slot
`idx`, a `targetVisibility`, a `transition`, and one cache of the last written value per
attribute; object-valued caches hold a reference, as in the sibling class of
`volcanos/volcano.js`. -/
structure Arrow where
  id : Nat
  data : Feature
  idx : Nat
  targetVisibility : ℚ
  transition : ℚ
  _oldPosAttr : Option Nat
  _oldDirAttr : Option Nat
  _oldSizeAttr : Option ℚ
  deriving DecidableEq, Repr

namespace Arrow

/-- Modelled from the spec: the constructor of the missing arrow class, called as
`new Arrow(arrowData, i, attributes)`.  It binds the feature and the slot index.  The spec
fixes neither the first `targetVisibility` nor the first `transition`; the values of the
constructor of `volcanos/volcano.js` stand in for them.  `_processNewData` assigns
`targetVisibility` right after the construction, and nothing in `direction-arrows.js`
reads or writes `transition`.  Of the initial writes the spec lists, position and
direction are the two setter calls that `_processNewData` makes right after the
construction; the spec gives no initial colour or size, and none is written here. -/
def new (data : Feature) (idx : Nat) : Arrow :=
  { id := data.id
    data := data
    idx := idx
    targetVisibility := 1
    transition := 1
    _oldPosAttr := none
    _oldDirAttr := none
    _oldSizeAttr := none }

/-- Modelled from the spec: `setPositionAttr(point)` of the missing arrow class, an
idempotent write that skips the buffer when the value is the one written last; the body
follows `setPositionAttr` of `volcanos/volcano.js`. -/
def setPositionAttr (a : Arrow) (point : PointObj) (attributes : Attributes) :
    Arrow × Attributes :=
  if a._oldPosAttr = some point.ref then (a, attributes)
  else
    let a0 := attributes.position.array.set (a.idx * 3) (roundFloat32 point.x)
    let a1 := a0.set (a.idx * 3 + 1) (roundFloat32 point.y)
    let a2 := a1.set (a.idx * 3 + 2) (roundFloat32 point.z)
    ({ a with _oldPosAttr := some point.ref },
     { attributes with position := { array := a2, needsUpdate := true } })

/-- Modelled from the spec: `setDirectionAttr(vector)` of the missing arrow class, the
same cached write on the `direction` array. -/
def setDirectionAttr (a : Arrow) (dir : PointObj) (attributes : Attributes) :
    Arrow × Attributes :=
  if a._oldDirAttr = some dir.ref then (a, attributes)
  else
    let a0 := attributes.direction.array.set (a.idx * 3) (roundFloat32 dir.x)
    let a1 := a0.set (a.idx * 3 + 1) (roundFloat32 dir.y)
    let a2 := a1.set (a.idx * 3 + 2) (roundFloat32 dir.z)
    ({ a with _oldDirAttr := some dir.ref },
     { attributes with direction := { array := a2, needsUpdate := true } })

/-- Modelled from the spec: `destroy()` of the missing arrow class sets the size attribute
of the slot to 0 (a cached write, as every attribute write of the spec). -/
def destroy (a : Arrow) (attributes : Attributes) : Arrow × Attributes :=
  if a._oldSizeAttr = some 0 then (a, attributes)
  else
    ({ a with _oldSizeAttr := some 0 },
     { attributes with
       size := { array := attributes.size.array.set a.idx 0, needsUpdate := true } })

end Arrow

/-- The fields of the arrow set (the default export of `direction-arrows.js`).  Fields
that the constructor does not assign are `undefined` (`none`); `_dataToProcess` is also
`none` once it has been set to `null`.  The texture and material play no part here. -/
structure DirectionArrows where
  attributes : Attributes
  _renderedArrows : List Arrow
  _dataToProcess : Option (List Feature)
  _latLngToPoint : Option (LatLng → PointObj)
  _currentData : Option (List Feature)

/-- The assignment `arr[i] = v` on a dense JavaScript array: overwrites inside the array
and appends at `i = arr.length`.  (The loops below never assign further out.) -/
def assignAt {α : Type} (arr : List α) (i : Nat) (v : α) : List α :=
  if i < arr.length then arr.set i v else arr ++ [v]

namespace DirectionArrows

/-- The constructor, `constructor()`: four zero-filled `Float32Array`s and an empty
`_renderedArrows`. -/
def new : DirectionArrows :=
  { attributes :=
      { position := { array := List.replicate (MAX_COUNT * 3) 0, needsUpdate := false }
        direction := { array := List.replicate (MAX_COUNT * 3) 0, needsUpdate := false }
        customColor := { array := List.replicate (MAX_COUNT * 3) 0, needsUpdate := false }
        size := { array := List.replicate MAX_COUNT 0, needsUpdate := false } }
    _renderedArrows := []
    _dataToProcess := none
    _latLngToPoint := none
    _currentData := none }

/-- The method `setProps(data, latLngToPoint)`. -/
def setProps (s : DirectionArrows) (data : List Feature) (latLngToPoint : LatLng → PointObj) :
    DirectionArrows :=
  { s with _dataToProcess := some data, _latLngToPoint := some latLngToPoint }

/-- The loop of `arrowAt`, `for (i = length - 1; i >= 0; i--)`, with `n = i + 1`. -/
def arrowAtLoop (hit : Arrow → Bool) (arrows : List Arrow) :
    Nat → Except JSError (Option Feature)
  | 0 => .ok none
  | i + 1 =>
    match arrows[i]? with
    | none => .error .TypeError
    | some a => if hit a then .ok (some a.data) else arrowAtLoop hit arrows i

/-- The method `arrowAt(x, y)`.  The `hitTest` method of the arrow class is not among the
sources and is the parameter `hitTest`; it reads the sprite and the shared attribute
arrays. -/
def arrowAt (hitTest : Arrow → Attributes → ℚ → ℚ → Bool) (s : DirectionArrows)
    (x y : ℚ) : Except JSError (Option Feature) :=
  arrowAtLoop (fun a => hitTest a s.attributes x y) s._renderedArrows s._renderedArrows.length

/-- The first loop of `_processNewData`, at index `i` with the features `data[i..]` left.
When a sprite already sits at index `i` the condition goes on to read `eqData.id`, and no
scope declares `eqData`: a `ReferenceError`.  Calling an `undefined` projector is a
`TypeError`.  The arrays are returned as the loop leaves them. -/
def processLoop (latLngToPoint : Option (LatLng → PointObj)) :
    List Feature → Nat → List Arrow → Attributes →
      Except JSError Unit × List Arrow × Attributes
  | [], _, arrows, attributes => (.ok (), arrows, attributes)
  | arrowData :: rest, i, arrows, attributes =>
    match arrows[i]? with
    | some _ => (.error .ReferenceError, arrows, attributes)
    | none =>
      match latLngToPoint with
      | none => (.error .TypeError, arrows, attributes)
      | some project =>
        let point := project arrowData.position
        let dir := arrowData.velocity
        let r1 := (Arrow.new arrowData i).setPositionAttr point attributes
        let r2 := r1.1.setDirectionAttr dir r1.2
        let arrow := { r2.1 with targetVisibility := if arrowData.visible then 1 else 0 }
        processLoop latLngToPoint rest (i + 1) (assignAt arrows i arrow) r2.2

/-- The second loop of `_processNewData` ("Reset old data"), with `k` iterations left at
index `i`. -/
def destroyLoop : Nat → Nat → List Arrow → Attributes →
    Except JSError Unit × List Arrow × Attributes
  | 0, _, arrows, attributes => (.ok (), arrows, attributes)
  | k + 1, i, arrows, attributes =>
    match arrows[i]? with
    | none => (.error .TypeError, arrows, attributes)
    | some a =>
      let r := a.destroy attributes
      destroyLoop k (i + 1) (arrows.set i r.1) r.2

/-- The method `_processNewData()`.  `data.splice(0, MAX_COUNT)` returns the first
`MAX_COUNT` features and leaves the rest in the array that `_dataToProcess` still refers
to. -/
def _processNewData (s : DirectionArrows) : Except JSError Unit × DirectionArrows :=
  match s._dataToProcess with
  | none => (.ok (), s)
  | some staged =>
    let data := if staged.length > MAX_COUNT then staged.take MAX_COUNT else staged
    let left := if staged.length > MAX_COUNT then staged.drop MAX_COUNT else staged
    match processLoop s._latLngToPoint data 0 s._renderedArrows s.attributes with
    | (.error e, arrows, attributes) =>
      (.error e, { s with attributes := attributes, _renderedArrows := arrows,
                          _dataToProcess := some left })
    | (.ok _, arrows, attributes) =>
      match destroyLoop (arrows.length - data.length) data.length arrows attributes with
      | (.error e, arrows1, attributes1) =>
        (.error e, { s with attributes := attributes1, _renderedArrows := arrows1,
                            _dataToProcess := some left })
      | (.ok _, arrows1, attributes1) =>
        (.ok (), { s with attributes := attributes1
                          _renderedArrows := arrows1.take data.length
                          _currentData := some data
                          _dataToProcess := none })

/-- The method `update(progress)`: `transitionInProgress` is initialised to `false`, the
pending data is processed, and `transitionInProgress` is returned. -/
def update (s : DirectionArrows) (_progress : ℚ) : Except JSError Bool × DirectionArrows :=
  let transitionInProgress := false
  match s._processNewData with
  | (.error e, s1) => (.error e, s1)
  | (.ok _, s1) => (.ok transitionInProgress, s1)

/-- The loop of `invalidatePositions`, with `k` iterations left at index `i`.  Reading
`_currentData[i].position` when `_currentData` is `undefined` or too short is a
`TypeError`. -/
def invalidateLoop (project : LatLng → PointObj) (currentData : Option (List Feature)) :
    Nat → Nat → List Arrow → Attributes → Except JSError Unit × List Arrow × Attributes
  | 0, _, arrows, attributes => (.ok (), arrows, attributes)
  | k + 1, i, arrows, attributes =>
    match currentData.bind (fun d => d[i]?), arrows[i]? with
    | some feature, some a =>
      let point := project feature.position
      let dir := feature.velocity
      let r1 := a.setPositionAttr point attributes
      let r2 := r1.1.setDirectionAttr dir r1.2
      invalidateLoop project currentData k (i + 1) (arrows.set i r2.1) r2.2
    | _, _ => (.error .TypeError, arrows, attributes)

/-- The method `invalidatePositions(latLngToPoint)`. -/
def invalidatePositions (s : DirectionArrows) (latLngToPoint : LatLng → PointObj) :
    Except JSError Unit × DirectionArrows :=
  let r := invalidateLoop latLngToPoint s._currentData s._renderedArrows.length 0
    s._renderedArrows s.attributes
  (r.1, { s with _latLngToPoint := some latLngToPoint
                 _renderedArrows := r.2.1
                 attributes := r.2.2 })

end DirectionArrows

/-- The states of an arrow set that calls of `setProps`, `update` and
`invalidatePositions` reach from a freshly constructed one (the state left behind by a
call that threw included). -/
inductive Reachable : DirectionArrows → Prop where
  | new : Reachable DirectionArrows.new
  | setProps (s : DirectionArrows) (data : List Feature) (p : LatLng → PointObj) :
      Reachable s → Reachable (s.setProps data p)
  | update (s : DirectionArrows) (progress : ℚ) :
      Reachable s → Reachable (s.update progress).2
  | invalidatePositions (s : DirectionArrows) (p : LatLng → PointObj) :
      Reachable s → Reachable (s.invalidatePositions p).2

/-! ## Sample inputs -/

/-- Buffers of a one-volcano layer: size 4 at screen position (10, 10). -/
def sampleVolcanoAttributes : VolcanoAttributes :=
  { position := { array := [10, 10, 0], needsUpdate := false }
    customColor := { array := [0, 0, 0, 0], needsUpdate := false }
    size := { array := [4], needsUpdate := false }
    date := { array := [0], needsUpdate := false } }

/-- A volcano sprite bound to slot 0. -/
def sampleVolcano : Volcano := Volcano.new { id := 7, date := 1980 } 0

/-- Buffers of a one-volcano layer: size 50 at screen position (10, 10). -/
def sampleVolcanoAttributes50 : VolcanoAttributes :=
  { position := { array := [10, 10, 0], needsUpdate := false }
    customColor := { array := [0, 0, 0, 0], needsUpdate := false }
    size := { array := [50], needsUpdate := false }
    date := { array := [0], needsUpdate := false } }

/-- Buffers of a one-volcano layer: size `2^22 = 4194304` at screen position
`(2^20, 0) = (1048576, 0)`, so that the radius is `2^20`. -/
def sampleWideVolcanoAttributes : VolcanoAttributes :=
  { position := { array := [1048576, 0, 0], needsUpdate := false }
    customColor := { array := [0, 0, 0, 0], needsUpdate := false }
    size := { array := [4194304], needsUpdate := false }
    date := { array := [0], needsUpdate := false } }

/-- A point object at reference 1. -/
def samplePoint : PointObj := { ref := 1, x := 3, y := 4, z := 0 }

/-- Another point object, at reference 2, with the coordinates of `samplePoint`. -/
def samplePointCopy : PointObj := { ref := 2, x := 3, y := 4, z := 0 }

/-- Clearing the `needsUpdate` flag of the position attribute, as the renderer does after
an upload. -/
def clearPositionFlag (attributes : VolcanoAttributes) : VolcanoAttributes :=
  { attributes with position := { attributes.position with needsUpdate := false } }

/-- A projector: longitude and latitude become `x` and `y` of a point object. -/
def sampleProject : LatLng → PointObj :=
  fun latLng => { ref := 100, x := latLng.lng, y := latLng.lat, z := 0 }

/-- Feature `A`, visible. -/
def featureA : Feature :=
  { id := 1, position := { lat := 1, lng := 2 },
    velocity := { ref := 11, x := 1, y := 0, z := 0 }, visible := true }

/-- Feature `B`, not visible. -/
def featureB : Feature :=
  { id := 2, position := { lat := 3, lng := 4 },
    velocity := { ref := 12, x := 0, y := 1, z := 0 }, visible := false }

/-- Feature `C`, visible. -/
def featureC : Feature :=
  { id := 3, position := { lat := 5, lng := 6 },
    velocity := { ref := 13, x := 1, y := 1, z := 0 }, visible := true }

/-- The arrow set after `setProps([A, B, C], sampleProject)` and one `update`. -/
def populatedABC : DirectionArrows :=
  ((DirectionArrows.new.setProps [featureA, featureB, featureC] sampleProject).update 1).2

/-! ## Auxiliary definitions for the statements -/

/-- The sprite the first loop of `_processNewData` leaves at a free index `i` for the
feature `f`: constructed from `f` with slot `i`, position and direction written once,
`targetVisibility` taken from `f.visible`. -/
def builtArrow (project : LatLng → PointObj) (f : Feature) (i : Nat) : Arrow :=
  { id := f.id
    data := f
    idx := i
    targetVisibility := if f.visible then 1 else 0
    transition := 1
    _oldPosAttr := some (project f.position).ref
    _oldDirAttr := some f.velocity.ref
    _oldSizeAttr := none }

/-- The sprites built for the features `data`, the first one at index `i`. -/
def builtArrows (project : LatLng → PointObj) : List Feature → Nat → List Arrow
  | [], _ => []
  | f :: rest, i => builtArrow project f i :: builtArrows project rest (i + 1)

/-- The buffers after the position and direction writes of the sprites built for `data`,
the first one at index `i`. -/
def builtAttributes (project : LatLng → PointObj) :
    List Feature → Nat → Attributes → Attributes
  | [], _, attributes => attributes
  | f :: rest, i, attributes =>
    builtAttributes project rest (i + 1)
      (((Arrow.new f i).setPositionAttr (project f.position) attributes).1.setDirectionAttr
        f.velocity ((Arrow.new f i).setPositionAttr (project f.position) attributes).2).2

/-- The calls that a viewport change is specified to make: for each rendered sprite paired
with its feature, in index order, `setPositionAttr(project(feature.position))` and then
`setDirectionAttr(feature.velocity)`. -/
def repositionAll (project : LatLng → PointObj) :
    List Arrow → List Feature → Attributes → List Arrow × Attributes
  | a :: arrows, f :: features, attributes =>
    let r1 := a.setPositionAttr (project f.position) attributes
    let r2 := r1.1.setDirectionAttr f.velocity r1.2
    let rest := repositionAll project arrows features r2.2
    (r2.1 :: rest.1, rest.2)
  | arrows, _, attributes => (arrows, attributes)

/-- The state invariant of the arrow set: one rendered sprite per current feature. -/
def Aligned (s : DirectionArrows) : Prop :=
  (s._currentData.getD []).length = s._renderedArrows.length

/-! ## Theorems: rounding -/

/-- An integer rounds to itself. -/
theorem roundHalfEven_intCast (m : ℤ) : roundHalfEven (m : ℚ) = m := by
  simp [roundHalfEven]

/-- The binary exponent of a positive rational between two consecutive powers of two. -/
theorem log_eq_of_bounds (r : ℚ) (e : ℤ) (h1 : (2 : ℚ) ^ e ≤ r) (h2 : r < (2 : ℚ) ^ (e + 1)) :
    Int.log 2 r = e := by
  have hr : 0 < r := lt_of_lt_of_le (by positivity) h1
  have a : e ≤ Int.log 2 r := (Int.zpow_le_iff_le_log (by norm_num) hr).1 (by exact_mod_cast h1)
  have b : Int.log 2 r < e + 1 :=
    (Int.lt_zpow_iff_log_lt (by norm_num) hr).1 (by exact_mod_cast h2)
  omega

/-- A value `n * 2^z` with `|n| < 2^53` and `z ≥ -1074` is a double: rounding keeps it. -/
theorem roundDouble_exact (n z : ℤ) (hn : |n| < 2 ^ 53) (hz : -1074 ≤ z) :
    roundDouble (n * 2 ^ z) = n * 2 ^ z := by
  by_cases h0 : n = 0
  · subst h0; simp [roundDouble, roundBinary]
  have hq : ((n : ℚ) * 2 ^ z) ≠ 0 := by
    apply mul_ne_zero
    · exact_mod_cast h0
    · positivity
  have habs : |((n : ℚ) * 2 ^ z)| < 2 ^ (53 + z) := by
    rw [abs_mul, abs_of_pos (by positivity : (0 : ℚ) < 2 ^ z),
      zpow_add₀ (by norm_num : (2 : ℚ) ≠ 0)]
    apply mul_lt_mul_of_pos_right _ (by positivity)
    have : ((|n| : ℤ) : ℚ) < 2 ^ (53 : ℤ) := by exact_mod_cast hn
    rwa [Int.cast_abs] at this
  have hlog : Int.log 2 |((n : ℚ) * 2 ^ z)| < 53 + z :=
    (Int.lt_zpow_iff_log_lt (by norm_num) (abs_pos.2 hq)).1 (by exact_mod_cast habs)
  generalize hj : max (Int.log 2 |((n : ℚ) * 2 ^ z)|) (-1022) - (((53 : ℕ) : ℤ) - 1) = j
  have hjz : j ≤ z := by
    rcases max_cases (Int.log 2 |((n : ℚ) * 2 ^ z)|) (-1022) with ⟨h, _⟩ | ⟨h, _⟩ <;>
      rw [h] at hj <;> push_cast at hj <;> omega
  obtain ⟨d, hd⟩ : ∃ d : ℕ, z = j + d :=
    ⟨(z - j).toNat, by rw [Int.toNat_of_nonneg (by omega)]; ring⟩
  have hdiv : ((n : ℚ) * 2 ^ z) / 2 ^ j = ((n * 2 ^ d : ℤ) : ℚ) := by
    rw [div_eq_iff (by positivity)]
    conv_lhs => rw [hd]
    rw [zpow_add₀ (by norm_num : (2 : ℚ) ≠ 0)]
    push_cast
    rw [zpow_natCast]
    ring
  unfold roundDouble roundBinary
  rw [if_neg hq, hj, hdiv, roundHalfEven_intCast]
  rw [← hdiv]
  exact div_mul_cancel₀ _ (by positivity)

/-- An integer below `2^53` in absolute value is a double. -/
theorem roundDouble_int (n : ℤ) (hn : |n| < 2 ^ 53) : roundDouble (n : ℚ) = n := by
  have := roundDouble_exact n 0 hn (by norm_num)
  simpa using this

/-- A quarter of an integer below `2^53` in absolute value is a double. -/
theorem roundDouble_quarter (n : ℤ) (hn : |n| < 2 ^ 53) :
    roundDouble ((n : ℚ) * (1 / 4)) = (n : ℚ) * (1 / 4) := by
  have := roundDouble_exact n (-2) hn (by norm_num)
  have h4 : (2 : ℚ) ^ (-2 : ℤ) = 1 / 4 := by norm_num
  rwa [h4] at this

/-- A sixteenth of an integer below `2^53` in absolute value is a double. -/
theorem roundDouble_sixteenth (n : ℤ) (hn : |n| < 2 ^ 53) :
    roundDouble ((n : ℚ) * (1 / 16)) = (n : ℚ) * (1 / 16) := by
  have := roundDouble_exact n (-4) hn (by norm_num)
  have h16 : (2 : ℚ) ^ (-4 : ℤ) = 1 / 16 := by norm_num
  rwa [h16] at this

/-- The sum `2^53 + 1` lies halfway between the doubles `2^53` and `2^53 + 2` and rounds
to the even one, `2^53`. -/
theorem roundDouble_two_pow_53_add_one :
    roundDouble (9007199254740993 : ℚ) = 9007199254740992 := by
  have hlog : Int.log 2 |(9007199254740993 : ℚ)| = 53 := by
    apply log_eq_of_bounds <;> norm_num
  have hfloor : ⌊(9007199254740993 : ℚ) / 2⌋ = 4503599627370496 := by
    rw [Int.floor_eq_iff]; constructor <;> norm_num
  unfold roundDouble roundBinary
  rw [if_neg (by norm_num), hlog]
  norm_num [roundHalfEven, hfloor]

/-- The sum `2^20 + 2^-40` is nearer to the double `2^20` than to the next one,
`2^20 + 2^-32`. -/
theorem roundDouble_absorbs_small :
    roundDouble ((1048576 : ℚ) - -(1 / 1099511627776)) = 1048576 := by
  have hval : (1048576 : ℚ) - -(1 / 1099511627776)
      = 1152921504606846977 / 1099511627776 := by norm_num
  have hlog : Int.log 2 |(1152921504606846977 / 1099511627776 : ℚ)| = 20 := by
    rw [abs_of_pos (by norm_num)]
    apply log_eq_of_bounds <;> norm_num
  have hfloor : ⌊(1152921504606846977 / 1099511627776 : ℚ) * 4294967296⌋
      = 4503599627370496 := by
    rw [Int.floor_eq_iff]; constructor <;> norm_num
  rw [hval]
  unfold roundDouble roundBinary
  rw [if_neg (by norm_num), hlog]
  norm_num [roundHalfEven, hfloor]

/-! ## Theorems: tile wrapping -/

/-- The truncating remainder agrees with the remainder of the dividend up to a multiple of
the divisor and is smaller than the divisor in absolute value. -/
theorem jsMod_bounds (x m : Int) (hm : 0 < m) :
    -m < jsMod x m ∧ jsMod x m < m ∧ (jsMod x m + m) % m = x % m := by
  unfold jsMod
  refine ⟨?_, Int.tmod_lt_of_pos x hm, ?_⟩
  · rcases Int.le_total 0 x with hx | hx
    · have := Int.tmod_nonneg m hx
      omega
    · have h1 : (-x).tmod m < m := Int.tmod_lt_of_pos (-x) hm
      have h2 : x.tmod m = -((-x).tmod m) := by
        rw [Int.tmod_def, Int.tmod_def, Int.neg_tdiv]
        ring
      omega
  · rw [Int.tmod_def]
    have : x - m * x.tdiv m + m = x + m * (1 - x.tdiv m) := by ring
    rw [this, Int.add_mul_emod_self_left]

/-- Up to zoom 52 the sum is below `2^53`, no rounding occurs, and the wrapped column is
the Euclidean remainder of the column. -/
theorem wrapColumn_exact (x : Int) (zoom : Nat) (hz : zoom ≤ 52) :
    wrapColumn (some x) zoom = some (x % 2 ^ zoom) := by
  have hm : (0 : Int) < 2 ^ zoom := by positivity
  have hm53 : (2 : Int) ^ zoom ≤ 2 ^ 52 := pow_le_pow_right₀ (by norm_num) hz
  obtain ⟨h1, h2, h3⟩ := jsMod_bounds x (2 ^ zoom) hm
  have hsum : |jsMod x (2 ^ zoom) + 2 ^ zoom| < 2 ^ 53 := by
    rw [abs_lt]; constructor <;> omega
  have hlt : ¬ ((2 : ℚ) ^ 1024 ≤ ((jsMod x (2 ^ zoom) + 2 ^ zoom : Int) : ℚ)) := by
    rw [not_le]
    have hq : ((jsMod x (2 ^ zoom) + 2 ^ zoom : Int) : ℚ) < ((2 ^ 53 : Int) : ℚ) := by
      exact_mod_cast (abs_lt.1 hsum).2
    refine lt_trans hq ?_
    norm_num
  unfold wrapColumn
  simp only [show ¬ (1024 ≤ zoom) by omega, if_false]
  rw [roundDouble_int _ hsum, if_neg hlt, Int.floor_intCast]
  congr 1
  rw [← h3]
  unfold jsMod at h1 ⊢
  exact Int.tmod_eq_emod (by omega) (Int.le_of_lt hm)

/-- C10 as stated fails: at `x = 1`, `zoom = 53` the sum `1 + 2^53` is no double and
rounds to `2^53`, so `wrapTileX` returns column 0, which is not congruent to 1 modulo
`2^53`. -/
theorem wrapTileX_zoom_53_rounds :
    wrapTileX { x := some 1, y := 0, zoom := 53 } = { x := some 0, y := 0, zoom := 53 } ∧
    ¬ ((0 : Int) ≡ 1 [ZMOD 2 ^ 53]) := by
  constructor
  · have hmod : jsMod 1 (2 ^ 53) + 2 ^ 53 = 9007199254740993 := by decide
    have hq : ((9007199254740993 : Int) : ℚ) = (9007199254740993 : ℚ) := by norm_num
    have hfl : ⌊(9007199254740992 : ℚ)⌋ = 9007199254740992 := by
      rw [Int.floor_eq_iff]; constructor <;> norm_num
    have hx : wrapColumn (some 1) 53 = some 0 := by
      unfold wrapColumn
      simp only [show ¬ (1024 ≤ 53) by decide, if_false, hmod, hq,
        roundDouble_two_pow_53_add_one]
      rw [if_neg (by norm_num), hfl]
      decide
    simp only [wrapTileX, hx]
  · decide

/-- C10, amended: for every tile with integer `x`, `|x| < 2^53` (so that `x` is a double),
of either sign and `0 ≤ zoom ≤ 52` (so that the sum stays below `2^53`), `wrapTileX`
returns a column in `[0, 2^zoom)` congruent to `x` modulo `2^zoom`, keeps `y` and `zoom`,
maps `x = -1, zoom = 4` to 15 and `x = 1, zoom = 4` to 1, and is idempotent. -/
theorem wrapTileX_range_congruent_idempotent (tile : Tile) (x : Int)
    (hx : tile.x = some x) (_hb : |x| < 2 ^ 53) (hz : tile.zoom ≤ 52) :
    ∃ x' : Int, (wrapTileX tile).x = some x' ∧
      0 ≤ x' ∧ x' < 2 ^ tile.zoom ∧ x' ≡ x [ZMOD 2 ^ tile.zoom] ∧
      (wrapTileX tile).y = tile.y ∧ (wrapTileX tile).zoom = tile.zoom ∧
      wrapTileX { x := some (-1), y := tile.y, zoom := 4 }
        = { x := some 15, y := tile.y, zoom := 4 } ∧
      wrapTileX { x := some 1, y := tile.y, zoom := 4 }
        = { x := some 1, y := tile.y, zoom := 4 } ∧
      wrapTileX (wrapTileX tile) = wrapTileX tile := by
  have hm : (0 : Int) < 2 ^ tile.zoom := by positivity
  have hw : wrapTileX tile = { x := some (x % 2 ^ tile.zoom), y := tile.y, zoom := tile.zoom } := by
    simp only [wrapTileX, hx, wrapColumn_exact x tile.zoom hz]
  refine ⟨x % 2 ^ tile.zoom, by rw [hw], Int.emod_nonneg _ (Int.ne_of_gt hm),
    Int.emod_lt_of_pos _ hm, Int.mod_modEq _ _, rfl, rfl, ?_, ?_, ?_⟩
  · simp only [wrapTileX, wrapColumn_exact (-1) 4 (by decide)]
    rfl
  · simp only [wrapTileX, wrapColumn_exact 1 4 (by decide)]
    rfl
  · rw [hw]
    simp only [wrapTileX, wrapColumn_exact _ tile.zoom hz,
      Int.emod_emod_of_dvd _ (dvd_refl _)]

/-- Witness for C10, amended: the tile with `x = -17` at zoom 4. -/
theorem wrapTileX_range_congruent_idempotent_witness :
    ∃ x' : Int, (wrapTileX { x := some (-17), y := 3, zoom := 4 }).x = some x' ∧
      0 ≤ x' ∧ x' < 2 ^ 4 ∧ x' ≡ -17 [ZMOD 2 ^ 4] ∧
      (wrapTileX { x := some (-17), y := 3, zoom := 4 }).y = 3 ∧
      (wrapTileX { x := some (-17), y := 3, zoom := 4 }).zoom = 4 ∧
      wrapTileX { x := some (-1), y := 3, zoom := 4 } = { x := some 15, y := 3, zoom := 4 } ∧
      wrapTileX { x := some 1, y := 3, zoom := 4 } = { x := some 1, y := 3, zoom := 4 } ∧
      wrapTileX (wrapTileX { x := some (-17), y := 3, zoom := 4 })
        = wrapTileX { x := some (-17), y := 3, zoom := 4 } :=
  wrapTileX_range_congruent_idempotent { x := some (-17), y := 3, zoom := 4 } (-17) rfl
    (by decide) (by decide)

/-! ## Theorems: the volcano sprite -/

/-- Squares and sums of squares of differences of integers up to `2^24` in absolute value
stay below `2^53`. -/
theorem small_int_bounds (a b c d s : ℤ) (ha : |a| ≤ 2 ^ 24) (hb : |b| ≤ 2 ^ 24)
    (hc : |c| ≤ 2 ^ 24) (hd : |d| ≤ 2 ^ 24) (hs : |s| ≤ 2 ^ 24) :
    |s| < 2 ^ 53 ∧ |a - b| < 2 ^ 53 ∧ |c - d| < 2 ^ 53 ∧
    |(a - b) * (a - b)| < 2 ^ 53 ∧ |(c - d) * (c - d)| < 2 ^ 53 ∧
    |(a - b) * (a - b) + (c - d) * (c - d)| < 2 ^ 53 ∧ |s * s| < 2 ^ 53 := by
  rw [abs_le] at ha hb hc hd hs
  have h1 : -(2 ^ 25 : ℤ) ≤ a - b ∧ a - b ≤ 2 ^ 25 := by constructor <;> omega
  have h2 : -(2 ^ 25 : ℤ) ≤ c - d ∧ c - d ≤ 2 ^ 25 := by constructor <;> omega
  have h3 : (a - b) * (a - b) ≤ 2 ^ 50 := by nlinarith
  have h4 : (c - d) * (c - d) ≤ 2 ^ 50 := by nlinarith
  have h5 : s * s ≤ 2 ^ 48 := by nlinarith
  have h6 : 0 ≤ (a - b) * (a - b) := mul_self_nonneg _
  have h7 : 0 ≤ (c - d) * (c - d) := mul_self_nonneg _
  have h8 : 0 ≤ s * s := mul_self_nonneg _
  refine ⟨?_, ?_, ?_, ?_, ?_, ?_, ?_⟩ <;> rw [abs_lt] <;> constructor <;> omega

/-- The hit test of a volcano sprite whose slot holds the integer size `s` and the integer
position `(px, py)`, at an integer point, all up to `2^24` in absolute value: every
intermediate result is a double and the test is the exact comparison. -/
theorem volcano_hitTest_iff (v : Volcano) (attributes : VolcanoAttributes)
    (s px py qx qy : ℤ)
    (hs : attributes.size.array[v.idx]? = some (s : ℚ))
    (hx : attributes.position.array[v.idx * 3]? = some (px : ℚ))
    (hy : attributes.position.array[v.idx * 3 + 1]? = some (py : ℚ))
    (bs : |s| ≤ 2 ^ 24) (bpx : |px| ≤ 2 ^ 24) (bpy : |py| ≤ 2 ^ 24)
    (bqx : |qx| ≤ 2 ^ 24) (bqy : |qy| ≤ 2 ^ 24) :
    v.hitTest attributes qx qy = true ↔
      (1 / 4 : ℚ) * s ≠ 0 ∧
        ((px : ℚ) - qx) ^ 2 + ((py : ℚ) - qy) ^ 2 ≤ ((1 / 4 : ℚ) * s) ^ 2 := by
  obtain ⟨k1, k2, k3, k4, k5, k6, k7⟩ := small_int_bounds px qx py qy s bpx bqx bpy bqy bs
  have e1 : roundDouble ((s : ℚ) * (1 / 4)) = (s : ℚ) * (1 / 4) := roundDouble_quarter s k1
  have e2 : roundDouble ((px : ℚ) - qx) = ((px - qx : ℤ) : ℚ) := by
    rw [← Int.cast_sub]; exact roundDouble_int _ k2
  have e3 : roundDouble ((py : ℚ) - qy) = ((py - qy : ℤ) : ℚ) := by
    rw [← Int.cast_sub]; exact roundDouble_int _ k3
  have e4 : roundDouble (((px - qx : ℤ) : ℚ) * ((px - qx : ℤ) : ℚ))
      = (((px - qx) * (px - qx) : ℤ) : ℚ) := by
    rw [← Int.cast_mul]; exact roundDouble_int _ k4
  have e5 : roundDouble (((py - qy : ℤ) : ℚ) * ((py - qy : ℤ) : ℚ))
      = (((py - qy) * (py - qy) : ℤ) : ℚ) := by
    rw [← Int.cast_mul]; exact roundDouble_int _ k5
  have e6 : roundDouble ((((px - qx) * (px - qx) : ℤ) : ℚ) + (((py - qy) * (py - qy) : ℤ) : ℚ))
      = (((px - qx) * (px - qx) + (py - qy) * (py - qy) : ℤ) : ℚ) := by
    rw [← Int.cast_add]; exact roundDouble_int _ k6
  have e7 : roundDouble ((s : ℚ) * (1 / 4) * ((s : ℚ) * (1 / 4)))
      = ((s * s : ℤ) : ℚ) * (1 / 16) := by
    have h : (s : ℚ) * (1 / 4) * ((s : ℚ) * (1 / 4)) = ((s * s : ℤ) : ℚ) * (1 / 16) := by
      push_cast; ring
    rw [h]; exact roundDouble_sixteenth _ k7
  unfold Volcano.hitTest
  simp only [hs, hx, hy, e1, e2, e3, e4, e5, e6, e7]
  by_cases h0 : s = 0
  · subst h0
    simp
  · have h0q : (s : ℚ) ≠ 0 := by exact_mod_cast h0
    have h1 : (s : ℚ) * (1 / 4) ≠ 0 := mul_ne_zero h0q (by norm_num)
    have h2 : (1 / 4 : ℚ) * s ≠ 0 := mul_ne_zero (by norm_num) h0q
    simp only [h1, if_false, decide_eq_true_eq, ne_eq, h2, not_false_eq_true, true_and]
    push_cast
    constructor <;> intro h <;> nlinarith [h]

/-- C5 as stated fails: with size `2^22` at `(2^20, 0)` the radius is `2^20`; at the query
point `(-2^-40, 0)` the difference `2^20 + 2^-40` rounds to `2^20`, so `hitTest` is true
although the squared distance exceeds the squared radius. -/
theorem volcano_hitTest_rounds_inside :
    sampleWideVolcanoAttributes.size.array[sampleVolcano.idx]? = some 4194304 ∧
    sampleWideVolcanoAttributes.position.array[sampleVolcano.idx * 3]? = some 1048576 ∧
    sampleWideVolcanoAttributes.position.array[sampleVolcano.idx * 3 + 1]? = some 0 ∧
    sampleVolcano.hitTest sampleWideVolcanoAttributes (-(1 / 1099511627776)) 0 = true ∧
    ¬ ((1 / 4 : ℚ) * 4194304 ≠ 0 ∧
        ((1048576 : ℚ) - -(1 / 1099511627776)) ^ 2 + ((0 : ℚ) - 0) ^ 2
          ≤ ((1 / 4 : ℚ) * 4194304) ^ 2) := by
  have hsz : sampleWideVolcanoAttributes.size.array[sampleVolcano.idx]? = some 4194304 := rfl
  have hpx : sampleWideVolcanoAttributes.position.array[sampleVolcano.idx * 3]?
      = some 1048576 := rfl
  have hpy : sampleWideVolcanoAttributes.position.array[sampleVolcano.idx * 3 + 1]?
      = some 0 := rfl
  refine ⟨hsz, hpx, hpy, ?_, ?_⟩
  · have e1 : roundDouble ((4194304 : ℚ) * (1 / 4)) = 1048576 := by
      have h := roundDouble_int 1048576 (by norm_num)
      have hv : (4194304 : ℚ) * (1 / 4) = ((1048576 : ℤ) : ℚ) := by norm_num
      rw [hv, h]; norm_num
    have e3 : roundDouble ((0 : ℚ) - 0) = 0 := by simp [roundDouble, roundBinary]
    have e4 : roundDouble ((1048576 : ℚ) * 1048576) = 1099511627776 := by
      have h := roundDouble_int 1099511627776 (by norm_num)
      have hv : (1048576 : ℚ) * 1048576 = ((1099511627776 : ℤ) : ℚ) := by norm_num
      rw [hv, h]; norm_num
    have e5 : roundDouble ((0 : ℚ) * 0) = 0 := by simp [roundDouble, roundBinary]
    have e6 : roundDouble ((1099511627776 : ℚ) + 0) = 1099511627776 := by
      have h := roundDouble_int 1099511627776 (by norm_num)
      have hv : (1099511627776 : ℚ) + 0 = ((1099511627776 : ℤ) : ℚ) := by norm_num
      rw [hv, h]; norm_num
    unfold Volcano.hitTest
    simp only [hsz, hpx, hpy, e1, roundDouble_absorbs_small, e3, e4, e5, e6]
    norm_num
  · norm_num

/-- C5, amended: for a sprite whose slot holds size `s` and screen position `(px, py)` and
a query `(x, y)`, all of them integers up to `2^24` in absolute value (so that every step
of the double arithmetic is exact), `hitTest(x, y)` is true exactly when `0.25 * s` is
non-zero and the squared distance from `(px, py)` to `(x, y)` is at most `(0.25 * s)^2`;
so with `s > 0` at `(10, 10)` the point `(10, 10)` hits and the point `(10 + 0.26 * s, 10)`,
when it is such an integer point, does not; and with `s = 0` no query point of any
coordinates hits. -/
theorem volcano_hitTest_isotropic (v : Volcano) (attributes : VolcanoAttributes)
    (s px py x y : ℤ)
    (hs : attributes.size.array[v.idx]? = some (s : ℚ))
    (hx : attributes.position.array[v.idx * 3]? = some (px : ℚ))
    (hy : attributes.position.array[v.idx * 3 + 1]? = some (py : ℚ))
    (bs : |s| ≤ 2 ^ 24) (bpx : |px| ≤ 2 ^ 24) (bpy : |py| ≤ 2 ^ 24)
    (bx : |x| ≤ 2 ^ 24) (bqy : |y| ≤ 2 ^ 24) :
    (v.hitTest attributes x y = true ↔
      (1 / 4 : ℚ) * s ≠ 0 ∧
        ((px : ℚ) - x) ^ 2 + ((py : ℚ) - y) ^ 2 ≤ ((1 / 4 : ℚ) * s) ^ 2) ∧
    (0 < s → px = 10 → py = 10 →
      v.hitTest attributes 10 10 = true ∧
      ((x : ℚ) = 10 + (26 / 100 : ℚ) * s → v.hitTest attributes x 10 = false)) ∧
    (s = 0 → ∀ qx qy : ℚ, v.hitTest attributes qx qy = false) := by
  refine ⟨volcano_hitTest_iff v attributes s px py x y hs hx hy bs bpx bpy bx bqy, ?_, ?_⟩
  · intro hpos hpx hpy
    subst hpx hpy
    have hpos' : (0 : ℚ) < s := by exact_mod_cast hpos
    constructor
    · have key := volcano_hitTest_iff v attributes s 10 10 10 10 hs hx hy bs bpx bpy
        (by norm_num) (by norm_num)
      have h10 : (((10 : ℤ) : ℚ)) = 10 := by norm_num
      rw [h10] at key
      rw [key]
      constructor
      · positivity
      · have : (0 : ℚ) ≤ ((1 / 4 : ℚ) * s) ^ 2 := by positivity
        simpa using this
    · intro hxq
      have key := volcano_hitTest_iff v attributes s 10 10 x 10 hs hx hy bs bpx bpy
        bx (by norm_num)
      have h10 : (((10 : ℤ) : ℚ)) = 10 := by norm_num
      rw [h10] at key
      cases hh : v.hitTest attributes (x : ℚ) 10 with
      | false => rfl
      | true =>
        exfalso
        have h2 := (key.1 hh).2
        rw [hxq] at h2
        nlinarith [h2, mul_pos hpos' hpos']
  · intro hs0 qx qy
    subst hs0
    unfold Volcano.hitTest
    simp [hs, roundDouble, roundBinary]

/-- Witness for C5, amended, on a volcano of size 50 at (10, 10): the centre hits, the
point `(10 + 0.26 * 50, 10) = (23, 10)` does not. -/
theorem volcano_hitTest_isotropic_witness :
    sampleVolcanoAttributes50.size.array[sampleVolcano.idx]? = some 50 ∧
    sampleVolcano.hitTest sampleVolcanoAttributes50 10 10 = true ∧
    sampleVolcano.hitTest sampleVolcanoAttributes50 23 10 = false := by
  have h := (volcano_hitTest_isotropic sampleVolcano sampleVolcanoAttributes50 50 10 10 23 10
      rfl rfl rfl (by norm_num) (by norm_num) (by norm_num) (by norm_num) (by norm_num)).2.1
      (by norm_num) rfl rfl
  refine ⟨rfl, h.1, ?_⟩
  have h2 := h.2 (by norm_num)
  simpa using h2

/-- C6: `destroy()` on the sample volcano (slot 0, size 4 at (10, 10)) ends in a
`TypeError`; the size array still holds 4 at the slot and the sprite still answers the hit
test at its centre. -/
theorem volcano_destroy_throws :
    (sampleVolcano.destroy sampleVolcanoAttributes).1 = .error .TypeError ∧
    (sampleVolcano.destroy sampleVolcanoAttributes).2.2.size.array[sampleVolcano.idx]?
      = some 4 ∧
    (sampleVolcano.destroy sampleVolcanoAttributes).2.1.hitTest
      (sampleVolcano.destroy sampleVolcanoAttributes).2.2 10 10 = true := by
  refine ⟨rfl, rfl, ?_⟩
  have key := volcano_hitTest_iff sampleVolcano sampleVolcanoAttributes 4 10 10 10 10
    rfl rfl rfl (by norm_num) (by norm_num) (by norm_num) (by norm_num) (by norm_num)
  have h10 : (((10 : ℤ) : ℚ)) = 10 := by norm_num
  rw [h10] at key
  exact key.2 (by norm_num)

/-- C7 as stated fails: after `setPositionAttr(samplePoint)` and a cleared flag, a call
with a distinct point object holding the same `x`, `y`, `z` sets `needsUpdate` again. -/
theorem volcano_setPositionAttr_equal_copy_rewrites :
    samplePoint.x = samplePointCopy.x ∧ samplePoint.y = samplePointCopy.y ∧
    samplePoint.z = samplePointCopy.z ∧
    (clearPositionFlag
      (sampleVolcano.setPositionAttr samplePoint sampleVolcanoAttributes).2).position.needsUpdate
      = false ∧
    ((sampleVolcano.setPositionAttr samplePoint sampleVolcanoAttributes).1.setPositionAttr
      samplePointCopy
      (clearPositionFlag
        (sampleVolcano.setPositionAttr samplePoint sampleVolcanoAttributes).2)).2.position.needsUpdate
      = true := by
  refine ⟨rfl, rfl, rfl, rfl, ?_⟩
  decide

/-- C7, amended: each of `setPositionAttr`, `setDateAttr` and `setColorAttr` remembers
the value it wrote (for a point, the object itself), the other two setters leave that
memory alone, and a call whose argument is the remembered point object (the same
reference), date or colour returns the sprite and the buffers as they are: nothing is
written and no `needsUpdate` flag is set, whatever happened to the buffers in between. -/
theorem volcano_setters_skip_same_value (v : Volcano) (before between : VolcanoAttributes)
    (point : PointObj) (date : ℚ) (color : Nat) :
    ((v.setPositionAttr point before).1._oldPosAttr = some point.ref ∧
     (v.setDateAttr date before).1._oldPosAttr = v._oldPosAttr ∧
     (v.setColorAttr color before).1._oldPosAttr = v._oldPosAttr ∧
     (v._oldPosAttr = some point.ref → v.setPositionAttr point between = (v, between))) ∧
    ((v.setDateAttr date before).1._oldDateAttr = some date ∧
     (v.setPositionAttr point before).1._oldDateAttr = v._oldDateAttr ∧
     (v.setColorAttr color before).1._oldDateAttr = v._oldDateAttr ∧
     (v._oldDateAttr = some date → v.setDateAttr date between = (v, between))) ∧
    ((v.setColorAttr color before).1._oldColorAttr = some color ∧
     (v.setPositionAttr point before).1._oldColorAttr = v._oldColorAttr ∧
     (v.setDateAttr date before).1._oldColorAttr = v._oldColorAttr ∧
     (v._oldColorAttr = some color → v.setColorAttr color between = (v, between))) := by
  unfold Volcano.setPositionAttr Volcano.setDateAttr Volcano.setColorAttr
  by_cases h1 : v._oldPosAttr = some point.ref <;>
    by_cases h2 : v._oldDateAttr = some date <;>
    by_cases h3 : v._oldColorAttr = some color <;>
    simp [h1, h2, h3]

/-- Witness for C7, amended: after `setPositionAttr(samplePoint)` and a cleared flag, a
second `setPositionAttr(samplePoint)` changes nothing and the flag stays cleared. -/
theorem volcano_setters_skip_same_value_witness :
    (sampleVolcano.setPositionAttr samplePoint sampleVolcanoAttributes).1._oldPosAttr
      = some samplePoint.ref ∧
    ((sampleVolcano.setPositionAttr samplePoint sampleVolcanoAttributes).1.setPositionAttr
      samplePoint
      (clearPositionFlag (sampleVolcano.setPositionAttr samplePoint sampleVolcanoAttributes).2))
      = ((sampleVolcano.setPositionAttr samplePoint sampleVolcanoAttributes).1,
         clearPositionFlag
           (sampleVolcano.setPositionAttr samplePoint sampleVolcanoAttributes).2) :=
  ⟨rfl,
   (volcano_setters_skip_same_value
      (sampleVolcano.setPositionAttr samplePoint sampleVolcanoAttributes).1
      sampleVolcanoAttributes
      (clearPositionFlag (sampleVolcano.setPositionAttr samplePoint sampleVolcanoAttributes).2)
      samplePoint 0 0).1.2.2.2 rfl⟩

/-! ## Theorems: the arrow set -/

/-- The sprite built at a free slot is `builtArrow`. -/
theorem built_sprite_eq (project : LatLng → PointObj) (f : Feature) (i : Nat)
    (attributes : Attributes) :
    { (((Arrow.new f i).setPositionAttr (project f.position) attributes).1.setDirectionAttr
        f.velocity ((Arrow.new f i).setPositionAttr (project f.position) attributes).2).1 with
      targetVisibility := if f.visible then 1 else 0 } = builtArrow project f i := by
  simp [Arrow.new, Arrow.setPositionAttr, Arrow.setDirectionAttr, builtArrow]

theorem builtArrows_length (project : LatLng → PointObj) (data : List Feature) (i : Nat) :
    (builtArrows project data i).length = data.length := by
  induction data generalizing i with
  | nil => rfl
  | cons f rest ih => simp [builtArrows, ih]

theorem builtArrows_getElem? (project : LatLng → PointObj) (data : List Feature) (i k : Nat) :
    (builtArrows project data i)[k]? = (data[k]?).map (fun f => builtArrow project f (i + k)) := by
  induction data generalizing i k with
  | nil => simp [builtArrows]
  | cons f rest ih =>
    cases k with
    | zero => simp [builtArrows]
    | succ k =>
      simp only [builtArrows, List.getElem?_cons_succ, ih]
      have : i + 1 + k = i + (k + 1) := by omega
      rw [this]

/-- On a sprite list that ends at the loop index the first loop builds one sprite per
feature and completes. -/
theorem processLoop_fresh (project : LatLng → PointObj) (data : List Feature) (i : Nat)
    (arrows : List Arrow) (attributes : Attributes) (h : arrows.length = i) :
    DirectionArrows.processLoop (some project) data i arrows attributes
      = (.ok (), arrows ++ builtArrows project data i,
          builtAttributes project data i attributes) := by
  induction data generalizing i arrows attributes with
  | nil => simp [DirectionArrows.processLoop, builtArrows, builtAttributes]
  | cons f rest ih =>
    have hnone : arrows[i]? = none := by simp [h]
    have hassign : ∀ a : Arrow, assignAt arrows i a = arrows ++ [a] := by
      intro a; simp [assignAt, h]
    simp only [DirectionArrows.processLoop, hnone, hassign, built_sprite_eq]
    rw [ih (i + 1) _ _ (by simp [h])]
    simp [builtArrows, builtAttributes]

/-- When a sprite already sits at the loop index, the first loop stops at once with a
`ReferenceError` and leaves the arrays as they are. -/
theorem processLoop_occupied (proj : Option (LatLng → PointObj)) (f : Feature)
    (rest : List Feature) (i : Nat) (arrows : List Arrow) (a : Arrow)
    (attributes : Attributes) (h : arrows[i]? = some a) :
    DirectionArrows.processLoop proj (f :: rest) i arrows attributes
      = (.error .ReferenceError, arrows, attributes) := by
  simp [DirectionArrows.processLoop, h]

/-- The second loop keeps the number of sprites and completes when its indices are in range. -/
theorem destroyLoop_spec (k i : Nat) (arrows : List Arrow) (attributes : Attributes) :
    (DirectionArrows.destroyLoop k i arrows attributes).2.1.length = arrows.length ∧
    (i + k ≤ arrows.length → (DirectionArrows.destroyLoop k i arrows attributes).1 = .ok ()) := by
  induction k generalizing i arrows attributes with
  | zero => simp [DirectionArrows.destroyLoop]
  | succ k ih =>
    unfold DirectionArrows.destroyLoop
    cases h : arrows[i]? with
    | none =>
      refine ⟨rfl, ?_⟩
      intro hle
      have := List.getElem?_eq_none_iff.1 h
      omega
    | some a =>
      obtain ⟨h1, h2⟩ := ih (i + 1) (arrows.set i (a.destroy attributes).1) (a.destroy attributes).2
      refine ⟨by simpa using h1, ?_⟩
      intro hle
      apply h2
      simp; omega

/-- The splice keeps the first `MAX_COUNT` features. -/
theorem splice_eq_take (staged : List Feature) :
    (if staged.length > MAX_COUNT then staged.take MAX_COUNT else staged)
      = staged.take MAX_COUNT := by
  split
  · rfl
  · rw [List.take_of_length_le (by omega)]

/-- Reconciliation into an empty sprite list completes and builds one sprite per kept
feature. -/
theorem processNewData_fresh (s : DirectionArrows) (staged : List Feature)
    (project : LatLng → PointObj) (hr : s._renderedArrows = [])
    (hd : s._dataToProcess = some staged) (hp : s._latLngToPoint = some project) :
    s._processNewData
      = (.ok (), { s with attributes := builtAttributes project (staged.take MAX_COUNT) 0 s.attributes
                          _renderedArrows := builtArrows project (staged.take MAX_COUNT) 0
                          _currentData := some (staged.take MAX_COUNT)
                          _dataToProcess := none }) := by
  unfold DirectionArrows._processNewData
  simp only [hd, hp, hr, splice_eq_take]
  rw [processLoop_fresh project _ 0 [] _ rfl]
  simp [builtArrows_length, DirectionArrows.destroyLoop]

/-- With a sprite rendered and a non-empty list staged, `update` ends in a
`ReferenceError` and leaves the rendered sprites and the current data as they are. -/
theorem update_throws_when_populated (s : DirectionArrows) (a : Arrow) (others : List Arrow)
    (f : Feature) (rest : List Feature) (progress : ℚ)
    (hr : s._renderedArrows = a :: others) (hd : s._dataToProcess = some (f :: rest)) :
    (s.update progress).1 = .error .ReferenceError ∧
    (s.update progress).2._renderedArrows = s._renderedArrows ∧
    (s.update progress).2._currentData = s._currentData := by
  have hne : ∃ g more, (f :: rest).take MAX_COUNT = g :: more :=
    ⟨f, rest.take (MAX_COUNT - 1), by simp [MAX_COUNT]⟩
  obtain ⟨g, more, htake⟩ := hne
  unfold DirectionArrows.update DirectionArrows._processNewData
  simp only [hd, splice_eq_take]
  simp only [htake, hr]
  rw [processLoop_occupied _ g more 0 (a :: others) a _ (by simp)]
  exact ⟨rfl, rfl, rfl⟩

/-- C1: on the arrow set populated by `setProps([A, B, C])` and `update`, the following
`setProps([A, B])` and `update` do not complete: `update` ends in a `ReferenceError`, the
three sprites stay rendered (the one at index 2 is not destroyed, the length is not
shrunk), the current data stays `[A, B, C]` and `[A, B]` stays staged. -/
theorem update_on_populated_set_throws :
    populatedABC._renderedArrows.length = 3 ∧
    ((populatedABC.setProps [featureA, featureB] sampleProject).update 1).1
      = .error .ReferenceError ∧
    ((populatedABC.setProps [featureA, featureB] sampleProject).update 1).2._renderedArrows.length
      = 3 ∧
    ((populatedABC.setProps [featureA, featureB] sampleProject).update 1).2._currentData
      = some [featureA, featureB, featureC] ∧
    ((populatedABC.setProps [featureA, featureB] sampleProject).update 1).2._dataToProcess
      = some [featureA, featureB] :=
  ⟨rfl, rfl, rfl, rfl, rfl⟩

/-- C2: for every feature list `L` staged on a freshly constructed arrow set, one `update`
completes and leaves `min(L.length, MAX_COUNT)` rendered sprites with `MAX_COUNT = 250000`;
the sprite at index `i` is the one constructed from the `i`-th feature of `L` with slot
index `i`, and the current data is the prefix of `L` of that length. -/
theorem first_update_capacity_and_truncation (L : List Feature)
    (project : LatLng → PointObj) (progress : ℚ) :
    MAX_COUNT = 250000 ∧
    ((DirectionArrows.new.setProps L project).update progress).1 = .ok false ∧
    ((DirectionArrows.new.setProps L project).update progress).2._renderedArrows.length
      = min L.length MAX_COUNT ∧
    (∀ i, i < min L.length MAX_COUNT → ∃ f, L[i]? = some f ∧
      ((DirectionArrows.new.setProps L project).update progress).2._renderedArrows[i]?
        = some { id := f.id
                 data := f
                 idx := i
                 targetVisibility := if f.visible then 1 else 0
                 transition := 1
                 _oldPosAttr := some (project f.position).ref
                 _oldDirAttr := some f.velocity.ref
                 _oldSizeAttr := none }) ∧
    ((DirectionArrows.new.setProps L project).update progress).2._currentData
      = some (L.take MAX_COUNT) := by
  have h := processNewData_fresh (DirectionArrows.new.setProps L project) L project rfl rfl rfl
  have hu : (DirectionArrows.new.setProps L project).update progress
      = (.ok false,
          { DirectionArrows.new.setProps L project with
            attributes := builtAttributes project (L.take MAX_COUNT) 0
              (DirectionArrows.new.setProps L project).attributes
            _renderedArrows := builtArrows project (L.take MAX_COUNT) 0
            _currentData := some (L.take MAX_COUNT)
            _dataToProcess := none }) := by
    unfold DirectionArrows.update
    rw [h]
  rw [hu]
  refine ⟨rfl, rfl, ?_, ?_, rfl⟩
  · simp only [builtArrows_length, List.length_take]
    exact Nat.min_comm _ _
  · intro i hi
    have hiL : i < L.length := lt_of_lt_of_le hi (Nat.min_le_left _ _)
    have hiM : i < MAX_COUNT := lt_of_lt_of_le hi (Nat.min_le_right _ _)
    refine ⟨L[i], List.getElem?_eq_getElem hiL, ?_⟩
    show (builtArrows project (L.take MAX_COUNT) 0)[i]? = _
    rw [builtArrows_getElem?, List.getElem?_take_of_lt hiM, List.getElem?_eq_getElem hiL]
    simp [builtArrow]

/-- The result of `update(progress)`: it never returns `true`.  It returns `false`
whenever it completes; it completes with an untouched state when nothing is staged, and
it completes when the staged list is reconciled into an empty sprite list. -/
theorem update_returns_false (s : DirectionArrows) (progress : ℚ) :
    ((s.update progress).1 = .ok false ∨ ∃ e, (s.update progress).1 = .error e) ∧
    (s._dataToProcess = none → s.update progress = (.ok false, s)) ∧
    (∀ staged project, s._renderedArrows = [] → s._dataToProcess = some staged →
      s._latLngToPoint = some project → (s.update progress).1 = .ok false) := by
  refine ⟨?_, ?_, ?_⟩
  · unfold DirectionArrows.update
    rcases h : s._processNewData with ⟨r, s1⟩
    cases r with
    | error e => exact Or.inr ⟨e, rfl⟩
    | ok u => exact Or.inl rfl
  · intro h
    simp [DirectionArrows.update, DirectionArrows._processNewData, h]
  · intro staged project hr hd hp
    unfold DirectionArrows.update
    rw [processNewData_fresh s staged project hr hd hp]

/-- Staging twice is staging the later list. -/
theorem setProps_setProps (s : DirectionArrows) (data0 data : List Feature)
    (p0 p : LatLng → PointObj) : (s.setProps data0 p0).setProps data p = s.setProps data p :=
  rfl

/-- C9: `setProps(data, projector)` leaves the rendered sprites, the current data and the
attribute arrays as they are and only stages `data` and stores the projector; after any
number of earlier `setProps` calls, a last `setProps(data, projector)` followed by `update`
gives the result of that single `setProps` followed by `update`. -/
theorem setProps_only_stages (s : DirectionArrows) (data : List Feature)
    (project : LatLng → PointObj) (progress : ℚ)
    (earlier : List (List Feature × (LatLng → PointObj))) :
    (s.setProps data project)._renderedArrows = s._renderedArrows ∧
    (s.setProps data project)._currentData = s._currentData ∧
    (s.setProps data project).attributes = s.attributes ∧
    (s.setProps data project)._dataToProcess = some data ∧
    ((earlier.foldl (fun st c => st.setProps c.1 c.2) s).setProps data project).update progress
      = (s.setProps data project).update progress := by
  refine ⟨rfl, rfl, rfl, rfl, ?_⟩
  have h : (earlier.foldl (fun st c => st.setProps c.1 c.2) s).setProps data project
      = s.setProps data project := by
    induction earlier generalizing s with
    | nil => rfl
    | cons c rest ih =>
      rw [List.foldl_cons, ih (s.setProps c.1 c.2), setProps_setProps]
  rw [h]

/-- The loop of `arrowAt` over the first `n` sprites: it answers the data of the last hit
below `n`, and `null` exactly when nothing below `n` is hit. -/
theorem arrowAtLoop_spec (hit : Arrow → Bool) (arrows : List Arrow) (n : Nat)
    (hn : n ≤ arrows.length) :
    (∀ i a, i < n → arrows[i]? = some a → hit a = true →
      (∀ j b, i < j → j < n → arrows[j]? = some b → hit b = false) →
      DirectionArrows.arrowAtLoop hit arrows n = .ok (some a.data)) ∧
    (DirectionArrows.arrowAtLoop hit arrows n = .ok none ↔
      ∀ j b, j < n → arrows[j]? = some b → hit b = false) := by
  induction n with
  | zero =>
    refine ⟨?_, ?_⟩
    · intro i a hi; omega
    · simp [DirectionArrows.arrowAtLoop]
  | succ n ih =>
    obtain ⟨ih1, ih2⟩ := ih (by omega)
    have hlt : n < arrows.length := by omega
    have hget : arrows[n]? = some arrows[n] := List.getElem?_eq_getElem hlt
    unfold DirectionArrows.arrowAtLoop
    simp only [hget]
    by_cases hh : hit arrows[n] = true
    · simp only [hh, if_true]
      refine ⟨?_, ?_⟩
      · intro i a hi hia hita hlast
        rcases Nat.lt_succ_iff_lt_or_eq.1 hi with hlt' | heq
        · have := hlast n arrows[n] hlt' (by omega) hget
          rw [hh] at this; cases this
        · subst heq
          rw [hget] at hia
          cases hia
          rfl
      · constructor
        · intro h; cases h
        · intro h
          have := h n arrows[n] (by omega) hget
          rw [hh] at this; cases this
    · have hf : hit arrows[n] = false := by simpa using hh
      simp only [hf, Bool.false_eq_true, if_false]
      refine ⟨?_, ?_⟩
      · intro i a hi hia hita hlast
        rcases Nat.lt_succ_iff_lt_or_eq.1 hi with hlt' | heq
        · exact ih1 i a hlt' hia hita (fun j b hij hjn => hlast j b hij (by omega))
        · subst heq
          rw [hget] at hia
          cases hia
          rw [hf] at hita; cases hita
      · rw [ih2]
        constructor
        · intro h j b hj hjb
          rcases Nat.lt_succ_iff_lt_or_eq.1 hj with hlt' | heq
          · exact h j b hlt' hjb
          · subst heq
            rw [hget] at hjb
            cases hjb
            exact hf
        · intro h j b hj hjb
          exact h j b (by omega) hjb

/-- C4: for every rendered sprite list, hit test and point `(x, y)`, `arrowAt(x, y)`
returns the `data` of the sprite with the greatest index whose `hitTest(x, y)` is true,
returns `null` exactly when no rendered sprite's `hitTest(x, y)` is true, and with two
sprites that both cover `(x, y)` returns the feature of index 1. -/
theorem arrowAt_reverse_order_precedence (hitTest : Arrow → Attributes → ℚ → ℚ → Bool)
    (s : DirectionArrows) (x y : ℚ) :
    (∀ (i : Nat) (a : Arrow), s._renderedArrows[i]? = some a →
      hitTest a s.attributes x y = true →
      (∀ (j : Nat) (b : Arrow), i < j → s._renderedArrows[j]? = some b →
        hitTest b s.attributes x y = false) →
      s.arrowAt hitTest x y = .ok (some a.data)) ∧
    (s.arrowAt hitTest x y = .ok none ↔
      ∀ a ∈ s._renderedArrows, hitTest a s.attributes x y = false) ∧
    (∀ a0 a1, s._renderedArrows = [a0, a1] → hitTest a0 s.attributes x y = true →
      hitTest a1 s.attributes x y = true → s.arrowAt hitTest x y = .ok (some a1.data)) := by
  obtain ⟨h1, h2⟩ := arrowAtLoop_spec (fun a => hitTest a s.attributes x y) s._renderedArrows
    s._renderedArrows.length (Nat.le_refl _)
  have first : ∀ (i : Nat) (a : Arrow), s._renderedArrows[i]? = some a →
      hitTest a s.attributes x y = true →
      (∀ (j : Nat) (b : Arrow), i < j → s._renderedArrows[j]? = some b →
        hitTest b s.attributes x y = false) →
      s.arrowAt hitTest x y = .ok (some a.data) := by
    intro i a hia hit hlast
    have hi : i < s._renderedArrows.length := (List.getElem?_eq_some_iff.1 hia).1
    exact h1 i a hi hia hit (fun j b hij _ hjb => hlast j b hij hjb)
  refine ⟨first, ?_, ?_⟩
  · unfold DirectionArrows.arrowAt
    rw [h2]
    constructor
    · intro h a ha
      obtain ⟨j, hj, rfl⟩ := List.getElem_of_mem ha
      exact h j _ hj (List.getElem?_eq_getElem hj)
    · intro h j b _ hjb
      exact h b (List.getElem?_mem hjb)
  · intro a0 a1 hr _ hit1
    apply first 1 a1 (by rw [hr]; rfl) hit1
    intro j b hj hjb
    rw [hr] at hjb
    have : j < [a0, a1].length := (List.getElem?_eq_some_iff.1 hjb).1
    simp at this
    omega

/-- Witness for C4: two sprites at indices 0 and 1 under a hit test that accepts both; the
feature of index 1 is returned. -/
theorem arrowAt_reverse_order_precedence_witness :
    ({ populatedABC with
        _renderedArrows := [builtArrow sampleProject featureA 0,
                            builtArrow sampleProject featureB 1] } : DirectionArrows).arrowAt
      (fun _ _ _ _ => true) 5 5 = .ok (some featureB) :=
  (arrowAt_reverse_order_precedence (fun _ _ _ _ => true)
    { populatedABC with
        _renderedArrows := [builtArrow sampleProject featureA 0,
                            builtArrow sampleProject featureB 1] } 5 5).2.2
    (builtArrow sampleProject featureA 0) (builtArrow sampleProject featureB 1) rfl rfl rfl

/-- The two setters of a viewport change keep the identity fields of a sprite. -/
theorem setters_keep_identity (a : Arrow) (point dir : PointObj) (attributes : Attributes) :
    ((a.setPositionAttr point attributes).1.setDirectionAttr dir
        (a.setPositionAttr point attributes).2).1.id = a.id ∧
    ((a.setPositionAttr point attributes).1.setDirectionAttr dir
        (a.setPositionAttr point attributes).2).1.idx = a.idx ∧
    ((a.setPositionAttr point attributes).1.setDirectionAttr dir
        (a.setPositionAttr point attributes).2).1.data = a.data := by
  unfold Arrow.setPositionAttr Arrow.setDirectionAttr
  by_cases h1 : a._oldPosAttr = some point.ref <;> by_cases h2 : a._oldDirAttr = some dir.ref <;>
    simp [h1, h2]

/-- The specified calls keep the identity fields of every sprite. -/
theorem repositionAll_keeps_identity (project : LatLng → PointObj) (arrows : List Arrow)
    (features : List Feature) (attributes : Attributes) :
    (repositionAll project arrows features attributes).1.map (fun a => (a.id, a.idx, a.data))
      = arrows.map (fun a => (a.id, a.idx, a.data)) := by
  induction arrows generalizing features attributes with
  | nil => cases features <;> simp [repositionAll]
  | cons a rest ih =>
    cases features with
    | nil => simp [repositionAll]
    | cons f fs =>
      obtain ⟨h1, h2, h3⟩ := setters_keep_identity a (project f.position) f.velocity attributes
      simp only [repositionAll, List.map_cons, ih, h1, h2, h3]

/-- The loop of `invalidatePositions` keeps the number of sprites. -/
theorem invalidateLoop_length (project : LatLng → PointObj)
    (currentData : Option (List Feature)) (k i : Nat) (arrows : List Arrow)
    (attributes : Attributes) :
    (DirectionArrows.invalidateLoop project currentData k i arrows attributes).2.1.length
      = arrows.length := by
  induction k generalizing i arrows attributes with
  | zero => rfl
  | succ k ih =>
    unfold DirectionArrows.invalidateLoop
    split
    · rw [ih]; simp
    · rfl

/-- With one feature per sprite, the loop of `invalidatePositions` over the sprites `todo`
that follow the processed ones completes and makes exactly the specified calls. -/
theorem invalidateLoop_append (project : LatLng → PointObj) (todo : List Arrow)
    (feats : List Feature) (processed : List Arrow) (pfeats : List Feature)
    (attributes : Attributes) (hp : processed.length = pfeats.length)
    (ht : todo.length = feats.length) :
    DirectionArrows.invalidateLoop project (some (pfeats ++ feats)) todo.length
        processed.length (processed ++ todo) attributes
      = (.ok (), processed ++ (repositionAll project todo feats attributes).1,
          (repositionAll project todo feats attributes).2) := by
  induction todo generalizing feats processed pfeats attributes with
  | nil =>
    cases feats with
    | nil => simp [DirectionArrows.invalidateLoop, repositionAll]
    | cons f fs => simp at ht
  | cons a rest ih =>
    cases feats with
    | nil => simp at ht
    | cons f fs =>
      have hf : (pfeats ++ f :: fs)[processed.length]? = some f := by
        rw [hp, List.getElem?_append_right (Nat.le_refl _)]; simp
      have ha : (processed ++ a :: rest)[processed.length]? = some a := by
        rw [List.getElem?_append_right (Nat.le_refl _)]; simp
      simp only [List.length_cons, DirectionArrows.invalidateLoop, Option.bind, hf, ha]
      have hset : ∀ b : Arrow, (processed ++ a :: rest).set processed.length b
          = (processed ++ [b]) ++ rest := by
        intro b
        rw [List.set_append_right _ _ (Nat.le_refl _)]; simp
      have hfe : pfeats ++ f :: fs = (pfeats ++ [f]) ++ fs := by simp
      have hlen : ∀ b : Arrow, processed.length + 1 = (processed ++ [b]).length := by
        intro b; simp
      rw [hset, hfe, hlen]
      rw [ih fs _ (pfeats ++ [f]) _ (by simp [hp]) (by simpa using ht)]
      simp [repositionAll]

/-- Reconciliation keeps one rendered sprite per current feature, whether it completes or
throws. -/
theorem processNewData_aligned (s : DirectionArrows) (h : Aligned s) :
    Aligned (s._processNewData).2 := by
  unfold DirectionArrows._processNewData
  cases hd : s._dataToProcess with
  | none => exact h
  | some staged =>
    simp only [splice_eq_take]
    cases hdata : staged.take MAX_COUNT with
    | nil =>
      simp only [DirectionArrows.processLoop, List.length_nil, Nat.sub_zero]
      obtain ⟨_, hok⟩ := destroyLoop_spec s._renderedArrows.length 0 s._renderedArrows s.attributes
      rcases hr : DirectionArrows.destroyLoop s._renderedArrows.length 0 s._renderedArrows
        s.attributes with ⟨r, arrows1, attributes1⟩
      rw [hr] at hok
      have hr1 : r = .ok () := hok (by omega)
      subst hr1
      simp [Aligned]
    | cons f rest =>
      cases harrows : s._renderedArrows with
      | cons a others =>
        rw [processLoop_occupied _ f rest 0 (a :: others) a _ (by simp)]
        simpa [Aligned, harrows] using h
      | nil =>
        cases hproj : s._latLngToPoint with
        | none =>
          simp only [DirectionArrows.processLoop, List.getElem?_nil]
          simpa [Aligned, harrows] using h
        | some project =>
          rw [processLoop_fresh project (f :: rest) 0 [] _ rfl]
          simp [Aligned, builtArrows_length, DirectionArrows.destroyLoop]

/-- Every reachable state has one rendered sprite per current feature. -/
theorem reachable_aligned (s : DirectionArrows) (h : Reachable s) : Aligned s := by
  induction h with
  | new => rfl
  | setProps s data p _ ih => exact ih
  | update s progress _ ih =>
    have h2 : (s.update progress).2 = (s._processNewData).2 := by
      unfold DirectionArrows.update
      rcases hr : s._processNewData with ⟨r, s1⟩
      cases r <;> rfl
    rw [h2]
    exact processNewData_aligned s ih
  | invalidatePositions s p _ ih =>
    unfold Aligned at ih ⊢
    simp only [DirectionArrows.invalidatePositions, invalidateLoop_length]
    exact ih

/-- C8: in every state reached by `setProps`, `update` and `invalidatePositions` calls,
`invalidatePositions(p)` completes without reading `_currentData` out of range (there is
one current feature per rendered sprite), makes exactly the calls
`setPositionAttr(p(currentData[i].position))` and `setDirectionAttr(currentData[i].velocity)`
on the sprite at every index `i` below the rendered length, and leaves the rendered count,
the `id`, slot and feature of the sprite at each index, the current data and the staged
data as they are. -/
theorem invalidatePositions_viewport_only (s : DirectionArrows)
    (project : LatLng → PointObj) (h : Reachable s) :
    (s._currentData.getD []).length = s._renderedArrows.length ∧
    (s.invalidatePositions project).1 = .ok () ∧
    ((s.invalidatePositions project).2._renderedArrows,
      (s.invalidatePositions project).2.attributes)
      = repositionAll project s._renderedArrows (s._currentData.getD []) s.attributes ∧
    (s.invalidatePositions project).2._renderedArrows.length = s._renderedArrows.length ∧
    (s.invalidatePositions project).2._renderedArrows.map (fun a => (a.id, a.idx, a.data))
      = s._renderedArrows.map (fun a => (a.id, a.idx, a.data)) ∧
    (s.invalidatePositions project).2._currentData = s._currentData ∧
    (s.invalidatePositions project).2._dataToProcess = s._dataToProcess := by
  have hal : (s._currentData.getD []).length = s._renderedArrows.length := reachable_aligned s h
  have hloop : DirectionArrows.invalidateLoop project s._currentData s._renderedArrows.length 0
      s._renderedArrows s.attributes
      = (.ok (), (repositionAll project s._renderedArrows (s._currentData.getD []) s.attributes).1,
          (repositionAll project s._renderedArrows (s._currentData.getD []) s.attributes).2) := by
    cases hc : s._currentData with
    | none =>
      rw [hc] at hal
      have hnil : s._renderedArrows = [] := by
        apply List.eq_nil_of_length_eq_zero
        simpa using hal.symm
      rw [hnil]
      simp [DirectionArrows.invalidateLoop, repositionAll]
    | some d =>
      rw [hc] at hal
      have := invalidateLoop_append project s._renderedArrows d [] [] s.attributes rfl
        (by simpa using hal.symm)
      simpa using this
  refine ⟨hal, ?_, ?_, ?_, ?_, rfl, rfl⟩
  · simp only [DirectionArrows.invalidatePositions, hloop]
  · simp only [DirectionArrows.invalidatePositions, hloop]
  · simp only [DirectionArrows.invalidatePositions, invalidateLoop_length]
  · simp only [DirectionArrows.invalidatePositions, hloop]
    exact repositionAll_keeps_identity _ _ _ _

/-- Witness for C8: the set populated with `[A, B, C]` is reachable; a viewport change
completes and keeps the three sprites and their ids. -/
theorem invalidatePositions_viewport_only_witness :
    Reachable populatedABC ∧
    (populatedABC.invalidatePositions sampleProject).1 = .ok () ∧
    (populatedABC.invalidatePositions sampleProject).2._renderedArrows.length = 3 ∧
    (populatedABC.invalidatePositions sampleProject).2._renderedArrows.map (fun a => a.id)
      = [1, 2, 3] :=
  ⟨Reachable.update _ 1 (Reachable.setProps _ _ _ Reachable.new),
   (invalidatePositions_viewport_only populatedABC sampleProject
      (Reachable.update _ 1 (Reachable.setProps _ _ _ Reachable.new))).2.1,
   rfl, rfl⟩

end Seismic
